import Mathlib

/-! Verification development for the wallet SDK core: token construction
(`newToken` in jwt.go), private-key parsing and signing (`signAndFormat` in
jwt.go), client construction and credential handling (`New`,
`SetCredentials` in wallet/wallet.go), and the query/command dispatcher.
Byte buffers are `List Nat`, Go strings are `String` or `List Char`,
`time.Duration` and clock readings are integer nanoseconds. -/

/-- Nanoseconds per second; Go `time.Time.Unix` truncates to seconds. -/
def giga : Nat := 1000000000

/-- Overwrite every byte of a buffer with zero, as the Go loops
`for i := range buf ... buf[i] = 0` in `signAndFormat` do. -/
def zeroBytes (bs : List Nat) : List Nat := bs.map fun _ => 0

/-- Lowercase hexadecimal digit, as produced by Go fmt percent-x. -/
def hexDigitChar (n : Nat) : Char :=
  "0123456789abcdef".toList.getD (n % 16) '0'

/-- Lowercase-hex rendering of a byte slice (Go fmt percent-x): two hex
digits per byte, high nibble first. -/
def hexString (bs : List Nat) : String :=
  ⟨bs.foldr (fun b acc => hexDigitChar (b / 16) :: hexDigitChar (b % 16) :: acc) []⟩

/-- URL-safe alphabet used by Go `base64.RawURLEncoding`. -/
def b64Alphabet : List Char :=
  "ABCDEFGHIJKLMNOPQRSTUVWXYZabcdefghijklmnopqrstuvwxyz0123456789-_".toList

/-- Character for one 6-bit group. -/
def b64Char (n : Nat) : Char := b64Alphabet.getD (n % 64) 'A'

/-- Go `base64.RawURLEncoding.EncodeToString`: unpadded URL-safe base64 of a
byte slice, 3 input bytes per 4 output characters, trailing group of 1 or 2
bytes yielding 2 or 3 characters and no padding. -/
def base64url : List Nat → List Char
  | [] => []
  | [a] => [b64Char (a / 4), b64Char (a % 4 * 16)]
  | [a, b] => [b64Char (a / 4), b64Char (a % 4 * 16 + b / 16), b64Char (b % 16 * 4)]
  | a :: b :: c :: rest =>
    b64Char (a / 4) :: b64Char (a % 4 * 16 + b / 16) ::
    b64Char (b % 16 * 4 + c / 64) :: b64Char (c % 64) :: base64url rest

/-- Source constant `es256` from jwt.go. -/
def es256 : String := "ES256"

/-- Source constant `rs256` from jwt.go. -/
def rs256 : String := "RS256"

/-- Embedding of `tokenHeader` from jwt.go. -/
structure tokenHeader where
  Alg : String
  Typ : String
deriving DecidableEq

/-- Embedding of `tokenPayload` from jwt.go. -/
structure tokenPayload where
  BodyHash : String
  Exp : Int
  Iat : Int
  Nonce : String
  Sub : String
  Uri : String
  Kid : String
deriving DecidableEq

/-- Embedding of `token` from jwt.go. -/
structure token where
  Header : tokenHeader
  Payload : tokenPayload
  shouldCleanKey : Bool
deriving DecidableEq

/-- Environment oracle for `newToken`: the random nonce read (`none` models
a failed `rand.Read`), the current clock in nanoseconds since the Unix
epoch, and the SHA-256 digest of the body (the hash itself is an external
crypto primitive supplied as an input). -/
structure TokenEnv where
  nonceBytes : Option (List Nat)
  nowNs : Nat
  bodyDigest : List Nat
deriving DecidableEq

/-- Embedding of `newToken` from jwt.go: fails when the randomness source
fails, otherwise builds the token with `Iat` the current Unix second,
`Exp` the Unix second of now plus ttl, hex nonce and hex body hash, fixed
subject "wallet", empty `Alg` (set later by signing), type "JWT". The
`body` argument is hashed through `env.bodyDigest`. -/
def newToken (keyID : String) (uri : String) (body : List Nat) (ttlNs : Nat)
    (shouldCleanKey : Bool) (env : TokenEnv) : Option token :=
  match body, env.nonceBytes with
  | _, none => none
  | _, some nb =>
    some
      { shouldCleanKey := shouldCleanKey
        Header := { Alg := "", Typ := "JWT" }
        Payload :=
          { Kid := keyID
            Sub := "wallet"
            Iat := (env.nowNs / giga : Nat)
            Exp := ((env.nowNs + ttlNs) / giga : Nat)
            Nonce := hexString nb
            BodyHash := hexString env.bodyDigest
            Uri := uri } }

/-- Embedding of Go `ecdsa.PrivateKey` numeric components: secret scalar D
and public point coordinates X, Y. -/
structure ECKey where
  D : Int
  X : Int
  Y : Int
deriving DecidableEq

/-- Embedding of Go `rsa.PrivateKey` numeric components: private exponent
D, modulus N, and the prime factors. -/
structure RSAKey where
  D : Int
  N : Int
  Primes : List Int
deriving DecidableEq

/-- Result of parsing DER bytes into a private key: an EC key, an RSA key,
or some other key type (possible through PKCS8). -/
inductive ParsedKey where
  | ec (k : ECKey)
  | rsa (k : RSAKey)
  | other
deriving DecidableEq

/-- Environment oracle for `signAndFormat`, supplying the outcomes of the
external library calls it makes: `pem.Decode` (the decoded DER bytes, a
fresh buffer separate from the input PEM), `x509.ParseECPrivateKey`,
`x509.ParsePKCS1PrivateKey`, `x509.ParsePKCS8PrivateKey`, the JSON
encodings of payload and of the header for each algorithm value, and the
randomized signature bytes for each algorithm. `none` models failure of
the corresponding call. -/
structure SignEnv where
  pemBlock : Option (List Nat)
  parseEC : Option ECKey
  parsePKCS1 : Option RSAKey
  parsePKCS8 : Option ParsedKey
  payloadJSON : Option (List Nat)
  headerJSONES : Option (List Nat)
  headerJSONRS : Option (List Nat)
  signEC : Option (List Nat)
  signRSA : Option (List Nat)
deriving DecidableEq

/-- Key-type deduction of `signAndFormat` from jwt.go: try
`ParseECPrivateKey`, on error `ParsePKCS1PrivateKey`, on error
`ParsePKCS8PrivateKey`; the first parse that succeeds wins. -/
def parsePrivateKey (env : SignEnv) : Option ParsedKey :=
  match env.parseEC with
  | some k => some (ParsedKey.ec k)
  | none =>
    match env.parsePKCS1 with
    | some k => some (ParsedKey.rsa k)
    | none => env.parsePKCS8

/-- Error message of the PEM-decode failure branch in `signAndFormat`. -/
def pemFormatErrMsg : String :=
  "wallet: signAndFormat: private key must be in PEM format."

/-- Error message of the key-type deduction failure branch. -/
def deduceKeyErrMsg : String :=
  "wallet: signAndFormat: unable to deduce private key type. Valid key would either be EC or RSA."

/-- Stand-in message for a JSON encoding failure (the Go code wraps the
encoder error, whose text comes from the library). -/
def jsonEncodeErrMsg : String := "wallet: signAndFormat: json encode error"

/-- Error message of the EC signing failure branch. -/
def ecSignErrMsg : String := "wallet: signAndFormat: failed to sign with EC key."

/-- Error message of the RSA signing failure branch. -/
def rsaSignErrMsg : String := "wallet: signAndFormat: failed to sign with RSA key."

/-- Error message of the default branch of the key-type switch. -/
def castKeyErrMsg : String :=
  "wallet: signAndFormat: unable to cast private key type. Valid key would either be *[rsa.PrivateKey] or *[ecdsa.PrivateKey]."

/-- Observable outcome of one `signAndFormat` call: the returned value and
the final contents, at return time, of the input PEM buffer, of the
decoded DER buffer (when a PEM block was decoded), of the parsed key's
numeric components (when a key was parsed), and of the token header's
algorithm field. -/
structure SignOutcome where
  result : Except String (List Char)
  finalPEM : List Nat
  finalDER : Option (List Nat)
  finalKey : Option ParsedKey
  finalAlg : String

/-- Embedding of `(*token).signAndFormat` from jwt.go, mirroring its
control flow: a deferred loop zeroes the PEM buffer iff `shouldCleanKey`
(runs on every exit path); PEM decode failure returns the format error; a
second deferred loop zeroes the decoded DER bytes on every exit path after
a successful decode; key-type deduction tries EC, PKCS1 RSA, PKCS8 in
order; the payload is JSON-encoded then base64url-encoded; the switch on
the key type sets the header algorithm, encodes the header, signs
`header.payload`, and only after a successful signature replaces the key
components with zeros (EC: D, X, Y; RSA: D, N); the default switch branch
errors. The success value is `header.payload.signature` dot-joined. -/
def signAndFormat (t : token) (privateKeyPEM : List Nat) (env : SignEnv) : SignOutcome :=
  let finalPEM := if t.shouldCleanKey then zeroBytes privateKeyPEM else privateKeyPEM
  match env.pemBlock with
  | none =>
    { result := Except.error pemFormatErrMsg, finalPEM := finalPEM,
      finalDER := none, finalKey := none, finalAlg := t.Header.Alg }
  | some der =>
    let finalDER := some (zeroBytes der)
    match parsePrivateKey env with
    | none =>
      { result := Except.error deduceKeyErrMsg, finalPEM := finalPEM,
        finalDER := finalDER, finalKey := none, finalAlg := t.Header.Alg }
    | some pk =>
      match env.payloadJSON with
      | none =>
        { result := Except.error jsonEncodeErrMsg, finalPEM := finalPEM,
          finalDER := finalDER, finalKey := some pk, finalAlg := t.Header.Alg }
      | some pj =>
        let encodedPayload := base64url pj
        match pk with
        | ParsedKey.ec k =>
          match env.headerJSONES with
          | none =>
            { result := Except.error jsonEncodeErrMsg, finalPEM := finalPEM,
              finalDER := finalDER, finalKey := some (ParsedKey.ec k), finalAlg := es256 }
          | some hj =>
            match env.signEC with
            | none =>
              { result := Except.error ecSignErrMsg, finalPEM := finalPEM,
                finalDER := finalDER, finalKey := some (ParsedKey.ec k), finalAlg := es256 }
            | some sg =>
              { result := Except.ok (base64url hj ++ '.' :: encodedPayload ++ '.' :: base64url sg),
                finalPEM := finalPEM, finalDER := finalDER,
                finalKey := some (ParsedKey.ec ⟨0, 0, 0⟩), finalAlg := es256 }
        | ParsedKey.rsa k =>
          match env.headerJSONRS with
          | none =>
            { result := Except.error jsonEncodeErrMsg, finalPEM := finalPEM,
              finalDER := finalDER, finalKey := some (ParsedKey.rsa k), finalAlg := rs256 }
          | some hj =>
            match env.signRSA with
            | none =>
              { result := Except.error rsaSignErrMsg, finalPEM := finalPEM,
                finalDER := finalDER, finalKey := some (ParsedKey.rsa k), finalAlg := rs256 }
            | some sg =>
              { result := Except.ok (base64url hj ++ '.' :: encodedPayload ++ '.' :: base64url sg),
                finalPEM := finalPEM, finalDER := finalDER,
                finalKey := some (ParsedKey.rsa ⟨0, 0, k.Primes⟩), finalAlg := rs256 }
        | ParsedKey.other =>
          { result := Except.error castKeyErrMsg, finalPEM := finalPEM,
            finalDER := finalDER, finalKey := some ParsedKey.other, finalAlg := t.Header.Alg }

/-- Embedding of the `credentials` struct from wallet/wallet.go. -/
structure credentials where
  keyID : String
  privateKeyPEM : List Nat
deriving DecidableEq

/-- Embedding of `Options` from wallet/wallet.go. The
`CredentialsLoaderFunc` closure is represented by whether it is set plus
the values it returns (`loaderErr` is its error return); the `HTTPClient`
handle by whether it is set plus its timeout. -/
structure Options where
  loaderSet : Bool
  loaderKeyID : String
  loaderPEM : List Nat
  loaderErr : Option String
  httpClientSet : Bool
  httpTimeoutNs : Int
  maxReadRetry : Int
  retryIntervalNs : Int
  debug : Bool
deriving DecidableEq

/-- Embedding of `Client` from wallet/wallet.go. -/
structure Client where
  options : Options
  credentials : Option credentials
deriving DecidableEq

/-- The `defaultOptions` value built inside `New` in wallet/wallet.go:
10-second HTTP timeout, MaxReadRetry 5, RetryInterval 50 milliseconds. -/
def defaultOptions : Options :=
  { loaderSet := false, loaderKeyID := "", loaderPEM := [], loaderErr := none,
    httpClientSet := true, httpTimeoutNs := 10 * (giga : Int),
    maxReadRetry := 5, retryIntervalNs := 50000000, debug := false }

/-- Embedding of `New` from wallet/wallet.go: with no options the defaults
are used; otherwise the first options value is patched in sequence — a nil
HTTP client is replaced by the default one, a non-positive timeout forced
to 10 seconds, a non-positive MaxReadRetry defaulted to 5, a non-positive
RetryInterval defaulted to 50 milliseconds. -/
def New (opts : List Options) : Client :=
  match opts with
  | [] => { options := defaultOptions, credentials := none }
  | o :: _ =>
    let o1 := if o.httpClientSet = true then o
      else { o with httpClientSet := true, httpTimeoutNs := defaultOptions.httpTimeoutNs }
    let o2 := if o1.httpTimeoutNs ≤ 0 then { o1 with httpTimeoutNs := 10 * (giga : Int) } else o1
    let o3 := if o2.maxReadRetry ≤ 0 then { o2 with maxReadRetry := defaultOptions.maxReadRetry } else o2
    let o4 := if o3.retryIntervalNs ≤ 0 then { o3 with retryIntervalNs := defaultOptions.retryIntervalNs } else o3
    { options := o4, credentials := none }

/-- Embedding of `(*Client).SetCredentials` from wallet/wallet.go: a no-op
when a credentials loader is configured, otherwise stores the pair. -/
def SetCredentials (c : Client) (keyID : String) (privateKeyPEM : List Nat) : Client :=
  if c.options.loaderSet = true then c
  else { c with credentials := some { keyID := keyID, privateKeyPEM := privateKeyPEM } }

/-- Modelled from the spec: per-call credential resolution of the request
dispatcher (the repository's client-side resolve step lives in dispatch
code that is not under src, only its tests and callers are). Priority 1:
an installed loader is invoked and its result used, marked transient
(third component true, eligible for erasure). Priority 2: the statically
stored credentials, marked persistent. Otherwise a missing-credentials
error naming "credentials are not set". -/
def resolveCredentials (c : Client) : Except String (String × List Nat × Bool) :=
  if c.options.loaderSet = true then
    match c.options.loaderErr with
    | some e => Except.error e
    | none => Except.ok (c.options.loaderKeyID, c.options.loaderPEM, true)
  else
    match c.credentials with
    | some cr => Except.ok (cr.keyID, cr.privateKeyPEM, false)
    | none => Except.error "wallet: credentials are not set"

/-- Outcome of one HTTP attempt as seen by the dispatcher: a
transport-level failure, or a response with a status code and the
Retry-After value in seconds (read on 429). -/
inductive HTTPOutcome where
  | transportError
  | status (code : Nat) (retryAfterSecs : Nat)
deriving DecidableEq

/-- Observable trace of a dispatch: number of HTTP attempts made, total
nanoseconds slept across waits, the identifiers of the tokens sent (a
fresh token is minted for each attempt, identified by its attempt index),
and whether the call succeeded. -/
structure DispatchResult where
  attempts : Nat
  sleptNs : Nat
  tokens : List Nat
  ok : Bool
deriving DecidableEq

/-- Modelled from the spec: the retry and rate-limit state machine of the
query (read) dispatch path — the repository's `client.query`
implementation is not under src, only its tests are. Each list element is
the outcome of the next HTTP attempt; every attempt resolves credentials
and builds and signs a fresh single-use token, recorded by appending the
attempt index to the token trace. A transport failure or a 5xx status
sleeps `retryIntervalNs` and retries while fewer than `maxReadRetry`
retries have been used, and otherwise returns the last error as terminal;
a 429 sleeps the Retry-After duration and retries without consuming the
retry budget; a 2xx succeeds; any other status is terminal. An exhausted
outcome list ends the dispatch unsuccessfully. -/
def queryGo (maxReadRetry : Nat) (retryIntervalNs : Nat) :
    List HTTPOutcome → Nat → Nat → Nat → List Nat → DispatchResult
  | [], _, a, s, tk => ⟨a, s, tk, false⟩
  | out :: rest, used, a, s, tk =>
    match out with
    | HTTPOutcome.transportError =>
      if used < maxReadRetry then
        queryGo maxReadRetry retryIntervalNs rest (used + 1) (a + 1) (s + retryIntervalNs) (tk ++ [a])
      else ⟨a + 1, s, tk ++ [a], false⟩
    | HTTPOutcome.status code retryAfterSecs =>
      if 200 ≤ code ∧ code < 300 then ⟨a + 1, s, tk ++ [a], true⟩
      else if code = 429 then
        queryGo maxReadRetry retryIntervalNs rest used (a + 1) (s + retryAfterSecs * giga) (tk ++ [a])
      else if 500 ≤ code ∧ code < 600 then
        if used < maxReadRetry then
          queryGo maxReadRetry retryIntervalNs rest (used + 1) (a + 1) (s + retryIntervalNs) (tk ++ [a])
        else ⟨a + 1, s, tk ++ [a], false⟩
      else ⟨a + 1, s, tk ++ [a], false⟩

/-- Modelled from the spec: a query dispatch starting with zero retries
used, zero attempts, zero sleep and no tokens sent. -/
def queryDispatch (maxReadRetry retryIntervalNs : Nat) (responses : List HTTPOutcome) : DispatchResult :=
  queryGo maxReadRetry retryIntervalNs responses 0 0 0 []

/-- Modelled from the spec: the command (write) dispatch path — the
repository's `client.command` implementation is not under src, only its
tests are. A single attempt is made with a fresh token; a 2xx succeeds and
anything else, including every 5xx, is an immediate terminal failure: the
retry configuration is accepted but never consulted. Rate-limit handling
for commands is left unspecified by the spec and modelled as terminal;
no claim depends on it. -/
def commandDispatch (maxReadRetry retryIntervalNs : Nat) (responses : List HTTPOutcome) : DispatchResult :=
  match maxReadRetry, retryIntervalNs, responses with
  | _, _, [] => ⟨0, 0, [], false⟩
  | _, _, out :: _ =>
    match out with
    | HTTPOutcome.transportError => ⟨1, 0, [0], false⟩
    | HTTPOutcome.status code _ =>
      if 200 ≤ code ∧ code < 300 then ⟨1, 0, [0], true⟩ else ⟨1, 0, [0], false⟩

/-- Sample payload used by concrete instances. -/
def payload0 : tokenPayload :=
  { BodyHash := "", Exp := 0, Iat := 0, Nonce := "", Sub := "wallet", Uri := "/u", Kid := "k" }

/-- Sample token with a persistent (statically stored) key buffer. -/
def tokF : token :=
  { Header := { Alg := "", Typ := "JWT" }, Payload := payload0, shouldCleanKey := false }

/-- Sample token with a transient (loader-provided) key buffer. -/
def cleanTok : token :=
  { Header := { Alg := "", Typ := "JWT" }, Payload := payload0, shouldCleanKey := true }

/-- Signing environment in which every step succeeds with an EC key. -/
def okEnvEC : SignEnv :=
  { pemBlock := some [1], parseEC := some ⟨5, 6, 7⟩, parsePKCS1 := none,
    parsePKCS8 := none, payloadJSON := some [], headerJSONES := some [],
    headerJSONRS := none, signEC := some [], signRSA := none }

/-- Signing environment whose EC key parses but whose signing step fails. -/
def cexEnvEC : SignEnv :=
  { pemBlock := some [1], parseEC := some ⟨1, 2, 3⟩, parsePKCS1 := none,
    parsePKCS8 := none, payloadJSON := some [], headerJSONES := some [],
    headerJSONRS := none, signEC := none, signRSA := none }

/-- The token `newToken` builds at clock 0 with an empty nonce read, empty
body digest and a two-second ttl. -/
def tok2s : token :=
  { Header := { Alg := "", Typ := "JWT" },
    Payload := { BodyHash := "", Exp := 2, Iat := 0, Nonce := "", Sub := "wallet",
                 Uri := "/u", Kid := "k" },
    shouldCleanKey := false }

/-- The token `newToken` builds at clock 0 with an empty nonce read, empty
body digest and a half-second ttl. -/
def tokHalf : token :=
  { Header := { Alg := "", Typ := "JWT" },
    Payload := { BodyHash := "", Exp := 0, Iat := 0, Nonce := "", Sub := "wallet",
                 Uri := "/u", Kid := "k" },
    shouldCleanKey := false }

/-- Sample client whose loader capability is installed and succeeds. -/
def loaderClient : Client :=
  { options := { loaderSet := true, loaderKeyID := "ec-key-id", loaderPEM := [9],
                 loaderErr := none, httpClientSet := true, httpTimeoutNs := 1,
                 maxReadRetry := 5, retryIntervalNs := 1, debug := false },
    credentials := none }

/-- Sample options value with non-positive retry configuration. -/
def zeroRetryOptions : Options :=
  { loaderSet := false, loaderKeyID := "", loaderPEM := [], loaderErr := none,
    httpClientSet := true, httpTimeoutNs := 1, maxReadRetry := 0,
    retryIntervalNs := 0, debug := false }

theorem b64Char_ne_dot (n : Nat) : b64Char n ≠ '.' := by
  have h : n % 64 < 64 := Nat.mod_lt _ (by norm_num)
  have hall : ∀ m, m < 64 → b64Alphabet.getD m 'A' ≠ '.' := by decide
  exact hall _ h

theorem base64url_no_dot (bs : List Nat) : '.' ∉ base64url bs := by
  induction bs using base64url.induct with
  | case1 => simp [base64url]
  | case2 a =>
    simp only [base64url, List.mem_cons, List.not_mem_nil, or_false]
    exact not_or.mpr ⟨fun h => b64Char_ne_dot _ h.symm, fun h => b64Char_ne_dot _ h.symm⟩
  | case3 a b =>
    simp only [base64url, List.mem_cons, List.not_mem_nil, or_false]
    exact not_or.mpr ⟨fun h => b64Char_ne_dot _ h.symm,
      not_or.mpr ⟨fun h => b64Char_ne_dot _ h.symm, fun h => b64Char_ne_dot _ h.symm⟩⟩
  | case4 a b c rest ih =>
    simp only [base64url, List.mem_cons]
    intro h
    rcases h with h | h | h | h | h
    · exact b64Char_ne_dot _ h.symm
    · exact b64Char_ne_dot _ h.symm
    · exact b64Char_ne_dot _ h.symm
    · exact b64Char_ne_dot _ h.symm
    · exact ih h

theorem signAndFormat_finalPEM_eq (t : token) (pem : List Nat) (env : SignEnv) :
    (signAndFormat t pem env).finalPEM = if t.shouldCleanKey then zeroBytes pem else pem := by
  unfold signAndFormat
  cases env.pemBlock with
  | none => rfl
  | some der =>
    cases parsePrivateKey env with
    | none => rfl
    | some pk =>
      cases env.payloadJSON with
      | none => rfl
      | some pj =>
        cases pk with
        | ec k =>
          cases env.headerJSONES with
          | none => rfl
          | some hj =>
            cases env.signEC with
            | none => rfl
            | some sg => rfl
        | rsa k =>
          cases env.headerJSONRS with
          | none => rfl
          | some hj =>
            cases env.signRSA with
            | none => rfl
            | some sg => rfl
        | other => rfl

theorem signAndFormat_finalDER_eq (t : token) (pem : List Nat) (env : SignEnv)
    (der : List Nat) (h : env.pemBlock = some der) :
    (signAndFormat t pem env).finalDER = some (zeroBytes der) := by
  unfold signAndFormat
  rw [h]
  cases parsePrivateKey env with
  | none => rfl
  | some pk =>
    cases env.payloadJSON with
    | none => rfl
    | some pj =>
      cases pk with
      | ec k =>
        cases env.headerJSONES with
        | none => rfl
        | some hj =>
          cases env.signEC with
          | none => rfl
          | some sg => rfl
      | rsa k =>
        cases env.headerJSONRS with
        | none => rfl
        | some hj =>
          cases env.signRSA with
          | none => rfl
          | some sg => rfl
      | other => rfl

theorem signAndFormat_ok_anatomy (t : token) (pem : List Nat) (env : SignEnv)
    (tok : List Char) (h : (signAndFormat t pem env).result = Except.ok tok) :
    ∃ pjb hj sg, env.payloadJSON = some pjb ∧
      tok = base64url hj ++ '.' :: base64url pjb ++ '.' :: base64url sg ∧
      ((env.headerJSONES = some hj ∧ env.signEC = some sg ∧
          (signAndFormat t pem env).finalKey = some (ParsedKey.ec ⟨0, 0, 0⟩)) ∨
       (env.headerJSONRS = some hj ∧ env.signRSA = some sg ∧
          ∃ ps, (signAndFormat t pem env).finalKey = some (ParsedKey.rsa ⟨0, 0, ps⟩))) := by
  obtain ⟨pb, pec, p1, p8, pj, hes, hrs, sec, srs⟩ := env
  cases pb with
  | none => simp [signAndFormat] at h
  | some der =>
    cases pec with
    | some k =>
      cases pj with
      | none => simp [signAndFormat, parsePrivateKey] at h
      | some pjb =>
        cases hes with
        | none => simp [signAndFormat, parsePrivateKey] at h
        | some hj =>
          cases sec with
          | none => simp [signAndFormat, parsePrivateKey] at h
          | some sg =>
            exact ⟨pjb, hj, sg, rfl, (Except.ok.inj h).symm, Or.inl ⟨rfl, rfl, rfl⟩⟩
    | none =>
      cases p1 with
      | some k =>
        cases pj with
        | none => simp [signAndFormat, parsePrivateKey] at h
        | some pjb =>
          cases hrs with
          | none => simp [signAndFormat, parsePrivateKey] at h
          | some hj =>
            cases srs with
            | none => simp [signAndFormat, parsePrivateKey] at h
            | some sg =>
              exact ⟨pjb, hj, sg, rfl, (Except.ok.inj h).symm,
                Or.inr ⟨rfl, rfl, k.Primes, rfl⟩⟩
      | none =>
        cases p8 with
        | none => simp [signAndFormat, parsePrivateKey] at h
        | some pk8 =>
          cases pk8 with
          | ec k =>
            cases pj with
            | none => simp [signAndFormat, parsePrivateKey] at h
            | some pjb =>
              cases hes with
              | none => simp [signAndFormat, parsePrivateKey] at h
              | some hj =>
                cases sec with
                | none => simp [signAndFormat, parsePrivateKey] at h
                | some sg =>
                  exact ⟨pjb, hj, sg, rfl, (Except.ok.inj h).symm, Or.inl ⟨rfl, rfl, rfl⟩⟩
          | rsa k =>
            cases pj with
            | none => simp [signAndFormat, parsePrivateKey] at h
            | some pjb =>
              cases hrs with
              | none => simp [signAndFormat, parsePrivateKey] at h
              | some hj =>
                cases srs with
                | none => simp [signAndFormat, parsePrivateKey] at h
                | some sg =>
                  exact ⟨pjb, hj, sg, rfl, (Except.ok.inj h).symm,
                    Or.inr ⟨rfl, rfl, k.Primes, rfl⟩⟩
          | other =>
            cases pj with
            | none => simp [signAndFormat, parsePrivateKey] at h
            | some pjb => simp [signAndFormat, parsePrivateKey] at h

/-- C1 (amended): on the successful signing path `signAndFormat` replaces
the parsed key's numeric components with zeros — for an EC key D, X and Y;
for an RSA key the private exponent D and modulus N, the prime factors
being left untouched — while on error exits (signing or encoding failure)
the components are not zeroed; and whenever the token was built with
`shouldCleanKey` true, the raw PEM buffer is zeroed on every exit path. -/
theorem signAndFormat_erasure_success_only (t : token) (pem : List Nat) (env : SignEnv) :
    (∀ tok, (signAndFormat t pem env).result = Except.ok tok →
      (signAndFormat t pem env).finalKey = some (ParsedKey.ec ⟨0, 0, 0⟩) ∨
      ∃ ps, (signAndFormat t pem env).finalKey = some (ParsedKey.rsa ⟨0, 0, ps⟩)) ∧
    (t.shouldCleanKey = true → (signAndFormat t pem env).finalPEM = zeroBytes pem) := by
  constructor
  · intro tok h
    obtain ⟨pjb, hj, sg, _, _, hcase⟩ := signAndFormat_ok_anatomy t pem env tok h
    rcases hcase with ⟨_, _, hk⟩ | ⟨_, _, ps, hk⟩
    · exact Or.inl hk
    · exact Or.inr ⟨ps, hk⟩
  · intro hclean
    rw [signAndFormat_finalPEM_eq, hclean]
    simp

/-- C1 as stated is false on the code: in a run where the EC key parses
(D = 1, X = 2, Y = 3) but the ECDSA signing call fails, `signAndFormat`
returns the signing error with the key components left non-zero. -/
theorem signAndFormat_erasure_on_error_counterexample :
    (signAndFormat tokF [7] cexEnvEC).result = Except.error ecSignErrMsg ∧
    (signAndFormat tokF [7] cexEnvEC).finalKey = some (ParsedKey.ec ⟨1, 2, 3⟩) ∧
    (signAndFormat tokF [7] cexEnvEC).finalKey ≠ some (ParsedKey.ec ⟨0, 0, 0⟩) :=
  ⟨rfl, rfl, by decide⟩

theorem signAndFormat_erasure_success_only_witness :
    ((signAndFormat cleanTok [7] okEnvEC).finalKey = some (ParsedKey.ec ⟨0, 0, 0⟩) ∨
      ∃ ps, (signAndFormat cleanTok [7] okEnvEC).finalKey = some (ParsedKey.rsa ⟨0, 0, ps⟩)) ∧
    (signAndFormat cleanTok [7] okEnvEC).finalPEM = zeroBytes [7] := by
  have h := signAndFormat_erasure_success_only cleanTok [7] okEnvEC
  exact ⟨h.1 ['.', '.'] rfl, h.2 rfl⟩

/-- C6: every compact token successfully produced by `signAndFormat` is
`header.payload.signature`: the base64url encoding (no padding) of the
header JSON, of the payload JSON and of the raw signature bytes, dot-joined,
and none of the three segments contains a dot, so the output has exactly
three dot-separated segments. -/
theorem signAndFormat_three_segments (t : token) (pem : List Nat) (env : SignEnv)
    (tok : List Char) (h : (signAndFormat t pem env).result = Except.ok tok) :
    ∃ hj pjb sg, env.payloadJSON = some pjb ∧
      (env.headerJSONES = some hj ∨ env.headerJSONRS = some hj) ∧
      (env.signEC = some sg ∨ env.signRSA = some sg) ∧
      tok = base64url hj ++ '.' :: base64url pjb ++ '.' :: base64url sg ∧
      '.' ∉ base64url hj ∧ '.' ∉ base64url pjb ∧ '.' ∉ base64url sg := by
  obtain ⟨pjb, hj, sg, hpj, htok, hcase⟩ := signAndFormat_ok_anatomy t pem env tok h
  rcases hcase with ⟨h1, h2, _⟩ | ⟨h1, h2, _⟩
  · exact ⟨hj, pjb, sg, hpj, Or.inl h1, Or.inl h2, htok,
      base64url_no_dot _, base64url_no_dot _, base64url_no_dot _⟩
  · exact ⟨hj, pjb, sg, hpj, Or.inr h1, Or.inr h2, htok,
      base64url_no_dot _, base64url_no_dot _, base64url_no_dot _⟩

theorem signAndFormat_three_segments_witness :
    ∃ hj pjb sg, okEnvEC.payloadJSON = some pjb ∧
      (okEnvEC.headerJSONES = some hj ∨ okEnvEC.headerJSONRS = some hj) ∧
      (okEnvEC.signEC = some sg ∨ okEnvEC.signRSA = some sg) ∧
      ['.', '.'] = base64url hj ++ '.' :: base64url pjb ++ '.' :: base64url sg ∧
      '.' ∉ base64url hj ∧ '.' ∉ base64url pjb ∧ '.' ∉ base64url sg :=
  signAndFormat_three_segments tokF [7] okEnvEC ['.', '.'] rfl

/-- C10: whenever the input decodes as a PEM block, the decoded DER bytes
are zeroed on every exit path of `signAndFormat`, also when
`shouldCleanKey` is false, and in that static-credentials case the PEM
buffer itself is left intact (the decoded block is a separate buffer), so
statically stored credentials remain usable for later calls. -/
theorem signAndFormat_der_zeroed_every_path (t : token) (pem : List Nat) (env : SignEnv)
    (der : List Nat) (h : env.pemBlock = some der) :
    (signAndFormat t pem env).finalDER = some (zeroBytes der) ∧
    (t.shouldCleanKey = false → (signAndFormat t pem env).finalPEM = pem) := by
  refine ⟨signAndFormat_finalDER_eq t pem env der h, ?_⟩
  intro hstatic
  rw [signAndFormat_finalPEM_eq, hstatic]
  simp

theorem signAndFormat_der_zeroed_every_path_witness :
    (signAndFormat tokF [7] cexEnvEC).finalDER = some (zeroBytes [1]) ∧
    (signAndFormat tokF [7] cexEnvEC).finalPEM = [7] := by
  have h := signAndFormat_der_zeroed_every_path tokF [7] cexEnvEC [1] rfl
  exact ⟨h.1, h.2 rfl⟩

/-- C2: `signAndFormat` deduces the key type by trying, in order, the EC
structure, then the RSA PKCS1 structure, then PKCS8, the first successful
parse deciding; when none parse it fails with the key-format error; a key
parsed as EC yields header alg ES256 and the ECDSA signature, a key parsed
as RSA yields RS256 and the PKCS1 v1.5 signature; a non-PEM input fails
with the PEM-format error (no panic, the function is total). -/
theorem signAndFormat_parse_order_and_alg (t : token) (pem : List Nat) (env : SignEnv) :
    ((env.pemBlock = none →
        (signAndFormat t pem env).result = Except.error pemFormatErrMsg) ∧
     (∀ k, env.parseEC = some k → parsePrivateKey env = some (ParsedKey.ec k)) ∧
     (∀ k, env.parseEC = none → env.parsePKCS1 = some k →
        parsePrivateKey env = some (ParsedKey.rsa k)) ∧
     (env.parseEC = none → env.parsePKCS1 = none → parsePrivateKey env = env.parsePKCS8) ∧
     (∀ der, env.pemBlock = some der → parsePrivateKey env = none →
        (signAndFormat t pem env).result = Except.error deduceKeyErrMsg)) ∧
    ((∀ der k pjb hj sg, env.pemBlock = some der → env.parseEC = some k →
        env.payloadJSON = some pjb → env.headerJSONES = some hj → env.signEC = some sg →
        (signAndFormat t pem env).result =
          Except.ok (base64url hj ++ '.' :: base64url pjb ++ '.' :: base64url sg) ∧
        (signAndFormat t pem env).finalAlg = es256) ∧
     (∀ der k pjb hj sg, env.pemBlock = some der → env.parseEC = none →
        env.parsePKCS1 = some k → env.payloadJSON = some pjb →
        env.headerJSONRS = some hj → env.signRSA = some sg →
        (signAndFormat t pem env).result =
          Except.ok (base64url hj ++ '.' :: base64url pjb ++ '.' :: base64url sg) ∧
        (signAndFormat t pem env).finalAlg = rs256)) := by
  refine ⟨⟨?_, ?_, ?_, ?_, ?_⟩, ?_, ?_⟩
  · intro h
    simp [signAndFormat, h]
  · intro k h
    simp [parsePrivateKey, h]
  · intro k h1 h2
    simp [parsePrivateKey, h1, h2]
  · intro h1 h2
    simp [parsePrivateKey, h1, h2]
  · intro der h1 h2
    simp [signAndFormat, h1, h2]
  · intro der k pjb hj sg h1 h2 h3 h4 h5
    constructor
    · simp [signAndFormat, parsePrivateKey, h1, h2, h3, h4, h5]
    · simp [signAndFormat, parsePrivateKey, h1, h2, h3, h4, h5]
  · intro der k pjb hj sg h1 h2 h2b h3 h4 h5
    constructor
    · simp [signAndFormat, parsePrivateKey, h1, h2, h2b, h3, h4, h5]
    · simp [signAndFormat, parsePrivateKey, h1, h2, h2b, h3, h4, h5]

theorem signAndFormat_parse_order_and_alg_witness :
    (signAndFormat tokF [7] okEnvEC).result =
      Except.ok (base64url [] ++ '.' :: base64url [] ++ '.' :: base64url []) ∧
    (signAndFormat tokF [7] okEnvEC).finalAlg = es256 :=
  (signAndFormat_parse_order_and_alg tokF [7] okEnvEC).2.1
    [1] ⟨5, 6, 7⟩ [] [] [] rfl rfl rfl rfl rfl

/-- C7 (amended): for a ttl that is a whole number of seconds, the payload
built by `newToken` satisfies `Exp - Iat = ttl` in seconds exactly, for any
build time; for a ttl with a sub-second component the difference of the
truncated Unix-second stamps cannot represent the ttl exactly. -/
theorem newToken_ttl_exact_whole_seconds (keyID uri : String) (body : List Nat)
    (ttlNs : Nat) (clean : Bool) (env : TokenEnv) (t : token)
    (hdiv : ttlNs % giga = 0)
    (hbuild : newToken keyID uri body ttlNs clean env = some t) :
    t.Payload.Exp - t.Payload.Iat = ((ttlNs / giga : Nat) : Int) := by
  obtain ⟨k, hk⟩ := Nat.dvd_of_mod_eq_zero hdiv
  unfold newToken at hbuild
  cases henb : env.nonceBytes with
  | none => rw [henb] at hbuild; simp at hbuild
  | some nb =>
    rw [henb] at hbuild
    simp only [Option.some.injEq] at hbuild
    subst hbuild
    have h1 : (env.nowNs + ttlNs) / giga = env.nowNs / giga + k := by
      rw [hk]
      exact Nat.add_mul_div_left env.nowNs k (by norm_num [giga])
    have h2 : ttlNs / giga = k := by
      rw [hk]
      exact Nat.mul_div_cancel_left k (by norm_num [giga])
    simp only [h1, h2]
    push_cast
    ring

/-- C7 is false as stated: at build time 0 with a 500-millisecond ttl, the
token's Exp and Iat coincide, so the difference does not equal the ttl. -/
theorem newToken_ttl_not_exact_counterexample :
    newToken "k" "/u" [] 500000000 false ⟨some [], 0, []⟩ = some tokHalf ∧
    (tokHalf.Payload.Exp - tokHalf.Payload.Iat) * (giga : Int) ≠ (500000000 : Int) :=
  ⟨by decide, by decide⟩

theorem newToken_ttl_exact_whole_seconds_witness :
    (2000000000 : Nat) % giga = 0 ∧
    tok2s.Payload.Exp - tok2s.Payload.Iat = ((2000000000 / giga : Nat) : Int) :=
  ⟨by decide, newToken_ttl_exact_whole_seconds "k" "/u" [] 2000000000 false
    ⟨some [], 0, []⟩ tok2s (by decide) (by decide)⟩

theorem SetCredentials_options (c : Client) (kid : String) (pem : List Nat) :
    (SetCredentials c kid pem).options = c.options := by
  unfold SetCredentials
  split <;> rfl

theorem New_single_retry_fields (o : Options) :
    (New [o]).options.maxReadRetry = (if o.maxReadRetry ≤ 0 then 5 else o.maxReadRetry) ∧
    (New [o]).options.retryIntervalNs =
      (if o.retryIntervalNs ≤ 0 then 50000000 else o.retryIntervalNs) := by
  unfold New
  dsimp only
  split_ifs <;> simp_all [defaultOptions]

/-- C3: on a 5xx server error or a transport failure, a query sleeps the
retry interval and retries with a fresh token while fewer than maxReadRetry
retries have been used, and once the budget is exhausted the attempt's
error is terminal; a query answered 500, 500, then 200 under maxReadRetry 5
makes exactly 3 HTTP attempts, each with its own freshly minted token, and
succeeds. -/
theorem query_5xx_retry_budget :
    (∀ maxR i rest used a s tk code ra, 500 ≤ code → code < 600 →
      (used < maxR →
        queryGo maxR i (HTTPOutcome.status code ra :: rest) used a s tk =
          queryGo maxR i rest (used + 1) (a + 1) (s + i) (tk ++ [a])) ∧
      (maxR ≤ used →
        queryGo maxR i (HTTPOutcome.status code ra :: rest) used a s tk =
          ⟨a + 1, s, tk ++ [a], false⟩)) ∧
    (∀ maxR i rest used a s tk,
      (used < maxR →
        queryGo maxR i (HTTPOutcome.transportError :: rest) used a s tk =
          queryGo maxR i rest (used + 1) (a + 1) (s + i) (tk ++ [a])) ∧
      (maxR ≤ used →
        queryGo maxR i (HTTPOutcome.transportError :: rest) used a s tk =
          ⟨a + 1, s, tk ++ [a], false⟩)) ∧
    (queryDispatch 5 50000000
        [HTTPOutcome.status 500 0, HTTPOutcome.status 500 0, HTTPOutcome.status 200 0] =
      ⟨3, 100000000, [0, 1, 2], true⟩) := by
  refine ⟨?_, ?_, ?_⟩
  · intro maxR i rest used a s tk code ra h5 h6
    constructor
    · intro hlt
      simp only [queryGo]
      rw [if_neg (by omega), if_neg (by omega), if_pos ⟨h5, h6⟩, if_pos hlt]
    · intro hge
      simp only [queryGo]
      rw [if_neg (by omega), if_neg (by omega), if_pos ⟨h5, h6⟩, if_neg (by omega)]
  · intro maxR i rest used a s tk
    constructor
    · intro hlt
      simp only [queryGo]
      rw [if_pos hlt]
    · intro hge
      simp only [queryGo]
      rw [if_neg (by omega)]
  · rfl

theorem query_5xx_retry_budget_witness :
    queryGo 5 50 [HTTPOutcome.status 500 0] 0 0 0 [] = queryGo 5 50 [] 1 1 50 [0] :=
  (query_5xx_retry_budget.1 5 50 [] 0 0 0 [] 500 0 (by decide) (by decide)).1 (by decide)

/-- C4: a command answered with any 5xx makes exactly one HTTP attempt and
fails immediately, whatever retry configuration the client carries. -/
theorem command_no_retry_on_5xx (maxR i : Nat) (rest : List HTTPOutcome)
    (code ra : Nat) (h5 : 500 ≤ code) (h6 : code < 600) :
    commandDispatch maxR i (HTTPOutcome.status code ra :: rest) = ⟨1, 0, [0], false⟩ := by
  simp only [commandDispatch]
  rw [if_neg (by omega)]

theorem command_no_retry_on_5xx_witness :
    commandDispatch 7 1 [HTTPOutcome.status 500 0] = ⟨1, 0, [0], false⟩ :=
  command_no_retry_on_5xx 7 1 [] 500 0 (by decide) (by decide)

/-- C5: a 429 response makes the query dispatcher sleep the Retry-After
duration (seconds) and retry without consuming the 5xx retry budget (the
used-retries counter is unchanged); a query answered 429 with Retry-After 1
and then 200 makes exactly 2 attempts, sleeps a full second, and
succeeds. -/
theorem query_429_sleep_and_retry :
    (∀ maxR i rest used a s tk ra,
      queryGo maxR i (HTTPOutcome.status 429 ra :: rest) used a s tk =
        queryGo maxR i rest used (a + 1) (s + ra * giga) (tk ++ [a])) ∧
    (queryDispatch 5 50000000 [HTTPOutcome.status 429 1, HTTPOutcome.status 200 0] =
      ⟨2, 1000000000, [0, 1], true⟩) ∧
    giga ≤ (queryDispatch 5 50000000
      [HTTPOutcome.status 429 1, HTTPOutcome.status 200 0]).sleptNs := by
  refine ⟨?_, ?_, ?_⟩
  · intro maxR i rest used a s tk ra
    simp only [queryGo]
    simp
  · rfl
  · decide

/-- C8: with a credentials loader configured, `SetCredentials` leaves the
statically stored slot unchanged, and per-call credential resolution
returns the loader's key identifier and key bytes (marked transient), so
statically stored credentials are never consulted. -/
theorem loader_priority_over_static (c : Client) (kid : String) (pem : List Nat)
    (h : c.options.loaderSet = true) :
    (SetCredentials c kid pem).credentials = c.credentials ∧
    (c.options.loaderErr = none →
      resolveCredentials (SetCredentials c kid pem) =
        Except.ok (c.options.loaderKeyID, c.options.loaderPEM, true)) := by
  constructor
  · simp [SetCredentials, h]
  · intro he
    simp [SetCredentials, resolveCredentials, h, he]

theorem loader_priority_over_static_witness :
    (SetCredentials loaderClient "rsa-key-id" [4]).credentials = none ∧
    resolveCredentials (SetCredentials loaderClient "rsa-key-id" [4]) =
      Except.ok ("ec-key-id", [9], true) := by
  have h := loader_priority_over_static loaderClient "rsa-key-id" [4] rfl
  exact ⟨h.1, h.2 rfl⟩

/-- C9: `New` defaults MaxReadRetry to 5 and RetryInterval to 50
milliseconds when no options are given or the supplied value is
non-positive, keeps positive supplied values, and `SetCredentials` — the
only mutating operation on a constructed client — leaves the options
untouched. -/
theorem new_retry_defaults (o : Options) (kid : String) (pem : List Nat) :
    ((New []).options.maxReadRetry = 5 ∧ (New []).options.retryIntervalNs = 50000000) ∧
    (o.maxReadRetry ≤ 0 → (New [o]).options.maxReadRetry = 5) ∧
    (0 < o.maxReadRetry → (New [o]).options.maxReadRetry = o.maxReadRetry) ∧
    (o.retryIntervalNs ≤ 0 → (New [o]).options.retryIntervalNs = 50000000) ∧
    (0 < o.retryIntervalNs → (New [o]).options.retryIntervalNs = o.retryIntervalNs) ∧
    (SetCredentials (New [o]) kid pem).options = (New [o]).options := by
  refine ⟨⟨rfl, rfl⟩, ?_, ?_, ?_, ?_, SetCredentials_options _ _ _⟩
  · intro h
    rw [(New_single_retry_fields o).1, if_pos h]
  · intro h
    rw [(New_single_retry_fields o).1, if_neg (by omega)]
  · intro h
    rw [(New_single_retry_fields o).2, if_pos h]
  · intro h
    rw [(New_single_retry_fields o).2, if_neg (by omega)]

theorem new_retry_defaults_witness :
    (New [zeroRetryOptions]).options.maxReadRetry = 5 ∧
    (New [zeroRetryOptions]).options.retryIntervalNs = 50000000 ∧
    (SetCredentials (New [zeroRetryOptions]) "k" [1]).options =
      (New [zeroRetryOptions]).options := by
  have h := new_retry_defaults zeroRetryOptions "k" [1]
  exact ⟨h.2.1 (by decide), h.2.2.2.1 (by decide), h.2.2.2.2.2⟩
